import Mathlib

/-!
Verification development for the dht-tester repository.

The Go sources are embedded shallowly: pure functions become Lean
functions, machine integers become Nat or Int with explicit reductions
where overflow matters, Go slices become lists with explicit
out-of-range behaviour, and fallible operations return Option or
Except.  Network effects (libp2p connections, DHT queries) are
modelled as oracle parameters so that the control flow of the embedded
code is exactly that of the source.
-/

namespace DhtTester

/-! ## SHA2-256 (executable embedding of the digest used by mh.Sum)

The test identifier generators call multihash Sum with the SHA2-256
code and length 32.  The digest is embedded as an executable function
on byte lists, with 32-bit words represented as Nat reduced modulo
2^32.
-/

def w32 : Nat := 4294967296

def add32 (a b : Nat) : Nat := (a + b) % w32

def rotr32 (n x : Nat) : Nat := ((x >>> n) ||| (x <<< (32 - n))) % w32

def sigBig0 (x : Nat) : Nat := (rotr32 2 x) ^^^ (rotr32 13 x) ^^^ (rotr32 22 x)

def sigBig1 (x : Nat) : Nat := (rotr32 6 x) ^^^ (rotr32 11 x) ^^^ (rotr32 25 x)

def sigSmall0 (x : Nat) : Nat := (rotr32 7 x) ^^^ (rotr32 18 x) ^^^ (x >>> 3)

def sigSmall1 (x : Nat) : Nat := (rotr32 17 x) ^^^ (rotr32 19 x) ^^^ (x >>> 10)

def chf (x y z : Nat) : Nat := (x &&& y) ^^^ ((x ^^^ (w32 - 1)) &&& z)

def majf (x y z : Nat) : Nat := (x &&& y) ^^^ (x &&& z) ^^^ (y &&& z)

/-- The 64 SHA-256 round constants, written in decimal. -/
def sha256K : List Nat :=
  [1116352408, 1899447441, 3049323471, 3921009573, 961987163,
   1508970993, 2453635748, 2870763221, 3624381080, 310598401,
   607225278, 1426881987, 1925078388, 2162078206, 2614888103,
   3248222580, 3835390401, 4022224774, 264347078, 604807628,
   770255983, 1249150122, 1555081692, 1996064986, 2554220882,
   2821834349, 2952996808, 3210313671, 3336571891, 3584528711,
   113926993, 338241895, 666307205, 773529912, 1294757372,
   1396182291, 1695183700, 1986661051, 2177026350, 2456956037,
   2730485921, 2820302411, 3259730800, 3345764771, 3516065817,
   3600352804, 4094571909, 275423344, 430227734, 506948616,
   659060556, 883997877, 958139571, 1322822218, 1537002063,
   1747873779, 1955562222, 2024104815, 2227730452, 2361852424,
   2428436474, 2756734187, 3204031479, 3329325298]

/-- The eight SHA-256 initial hash words, written in decimal. -/
def sha256Init : List Nat :=
  [1779033703, 3144134277, 1013904242, 2773480762, 1359893119,
   2600822924, 528734635, 1541459225]

def u64be (n : Nat) : List Nat :=
  [(n >>> 56) % 256, (n >>> 48) % 256, (n >>> 40) % 256, (n >>> 32) % 256,
   (n >>> 24) % 256, (n >>> 16) % 256, (n >>> 8) % 256, n % 256]

def padMessage (msg : List Nat) : List Nat :=
  msg ++ (128 :: List.replicate ((119 - msg.length % 64) % 64) 0) ++ u64be (8 * msg.length)

def bytesToWords : List Nat → List Nat
  | a :: b :: c :: d :: t => (((a * 256 + b) * 256 + c) * 256 + d) :: bytesToWords t
  | _ => []

def extendWords (ws : Array Nat) : Nat → Array Nat
  | 0 => ws
  | n + 1 =>
    let m := ws.size
    let w := add32 (add32 (ws.getD (m - 16) 0) (sigSmall0 (ws.getD (m - 15) 0)))
                   (add32 (ws.getD (m - 7) 0) (sigSmall1 (ws.getD (m - 2) 0)))
    extendWords (ws.push w) n

structure Sha256Regs where
  ra : Nat
  rb : Nat
  rc : Nat
  rd : Nat
  re : Nat
  rf : Nat
  rg : Nat
  rh : Nat

def compressRound (s : Sha256Regs) (kw : Nat × Nat) : Sha256Regs :=
  let t1 := add32 s.rh (add32 (sigBig1 s.re) (add32 (chf s.re s.rf s.rg) (add32 kw.1 kw.2)))
  let t2 := add32 (sigBig0 s.ra) (majf s.ra s.rb s.rc)
  { ra := add32 t1 t2, rb := s.ra, rc := s.rb, rd := s.rc,
    re := add32 s.rd t1, rf := s.re, rg := s.rf, rh := s.rg }

def compressBlock (h : List Nat) (block : List Nat) : List Nat :=
  let ws := (extendWords block.toArray 48).toList
  let s0 : Sha256Regs :=
    { ra := h.getD 0 0, rb := h.getD 1 0, rc := h.getD 2 0, rd := h.getD 3 0,
      re := h.getD 4 0, rf := h.getD 5 0, rg := h.getD 6 0, rh := h.getD 7 0 }
  let f := (sha256K.zip ws).foldl compressRound s0
  [add32 (h.getD 0 0) f.ra, add32 (h.getD 1 0) f.rb, add32 (h.getD 2 0) f.rc,
   add32 (h.getD 3 0) f.rd, add32 (h.getD 4 0) f.re, add32 (h.getD 5 0) f.rf,
   add32 (h.getD 6 0) f.rg, add32 (h.getD 7 0) f.rh]

def processBlocks : Nat → List Nat → List Nat → List Nat
  | 0, h, _ => h
  | n + 1, h, ws => processBlocks n (compressBlock h (ws.take 16)) (ws.drop 16)

def sha256 (msg : List Nat) : List Nat :=
  let ws := bytesToWords (padMessage msg)
  let hh := processBlocks (ws.length / 16) sha256Init ws
  hh.foldr
    (fun w acc => (w >>> 24) % 256 :: (w >>> 16) % 256 :: (w >>> 8) % 256 :: (w % 256) :: acc)
    []

/-- FIPS 180-4 test vector: the digest of the three-byte message abc. -/
theorem sha256_abc_vector :
    sha256 [97, 98, 99] =
      [0xba, 0x78, 0x16, 0xbf, 0x8f, 0x01, 0xcf, 0xea, 0x41, 0x41, 0x40, 0xde,
       0x5d, 0xae, 0x22, 0x23, 0xb0, 0x03, 0x61, 0xa3, 0x96, 0x17, 0x7a, 0x9c,
       0xb4, 0x10, 0xff, 0x61, 0xf2, 0x00, 0x15, 0xad] := by
  decide

/-! ## Multihash and CID wrapping

mh.Sum with code SHA2_256 and length 32 produces the bytes
0x12 0x20 followed by the digest; cid.NewCidV1 with the Raw codec
(0x55) prefixes version 1 and the codec varint.
-/

abbrev Cid := List Nat

def mhSum (data : List Nat) : List Nat := 18 :: 32 :: sha256 data

def cidV1Raw (mh : List Nat) : Cid := 1 :: 85 :: mh

/-- The byte content of the base label string dhttest. -/
def dhttestBase : List Nat := [100, 104, 116, 116, 101, 115, 116]

def leUint64 (n : Nat) : List Nat :=
  [n % 256, (n >>> 8) % 256, (n >>> 16) % 256, (n >>> 24) % 256,
   (n >>> 32) % 256, (n >>> 40) % 256, (n >>> 48) % 256, (n >>> 56) % 256]

/-! ## Test identifier generators

The tester binary (src/main.go getTestCIDs, same in the later tester
snapshots) hashes base plus the single byte b(i) = i mod 256.  The
test-client binary (src/cmd/testclient/main.go getTestCIDs, same code
in the driver snapshot of src/cmd/client/main.go) reuses one 8-byte
buffer across loop iterations, overwriting it each round with the
little-endian encoding of the index, and hashes base plus that buffer.
-/

namespace Tester

/-- Embeds src/main.go getTestCIDs: mh.Sum(append([]byte(base), byte(i)), SHA2_256, 32)
wrapped by cid.NewCidV1(cid.Raw, mh). -/
def getTestCIDs (count : Nat) : List Cid :=
  (List.range count).map (fun i => cidV1Raw (mhSum (dhttestBase ++ [i % 256])))

end Tester

namespace TestClient

/-- Embeds binary.LittleEndian.PutUint64(buf, uint64(i)): the first 8 bytes of
the buffer are overwritten, the rest (none, for an 8-byte array) is kept. -/
def putUint64LE (buf : List Nat) (v : Nat) : List Nat := leUint64 v ++ buf.drop 8

/-- Embeds the loop of src/cmd/testclient/main.go getTestCIDs with the shared
mutable buffer threaded through explicitly: each iteration overwrites buf with
the little-endian index and hashes base plus buf. -/
def getTestCIDsFrom (buf : List Nat) : Nat → Nat → List Cid
  | _, 0 => []
  | i, fuel + 1 =>
    let buf2 := putUint64LE buf i
    cidV1Raw (mhSum (dhttestBase ++ buf2)) :: getTestCIDsFrom buf2 (i + 1) fuel

/-- Embeds src/cmd/testclient/main.go getTestCIDs: the Go array var buf is
zero-initialised and has length 8. -/
def getTestCIDs (count : Nat) : List Cid :=
  getTestCIDsFrom (List.replicate 8 0) 0 count

end TestClient

/-- Modelled from the spec: generate(count) produces count content identifiers
by hashing base-label concatenated with little-endian(sequence-index) with a
fixed cryptographic digest and wrapping the digest in a fixed
content-identifier codec and version. -/
def generateSpec (count : Nat) : List Cid :=
  (List.range count).map (fun i => cidV1Raw (mhSum (dhttestBase ++ leUint64 i)))

theorem putUint64LE_length8 (buf : List Nat) (v : Nat) (h : buf.length = 8) :
    TestClient.putUint64LE buf v = leUint64 v := by
  unfold TestClient.putUint64LE
  rw [List.drop_eq_nil_of_le (by omega), List.append_nil]

theorem leUint64_length (v : Nat) : (leUint64 v).length = 8 := by
  simp [leUint64]

/-- The test-client loop, started at any 8-byte buffer, computes the map of the
pure per-index function over the index range: the buffer mutation does not leak
between iterations. -/
theorem getTestCIDsFrom_eq_map (fuel : Nat) :
    ∀ (buf : List Nat) (i : Nat), buf.length = 8 →
      TestClient.getTestCIDsFrom buf i fuel =
        (List.range' i fuel).map (fun j => cidV1Raw (mhSum (dhttestBase ++ leUint64 j))) := by
  induction fuel with
  | zero => intro buf i _; rfl
  | succ n ih =>
    intro buf i h
    rw [List.range'_succ]
    simp only [TestClient.getTestCIDsFrom, List.map_cons]
    rw [putUint64LE_length8 buf i h, ih (leUint64 i) (i + 1) (leUint64_length i)]

theorem testClient_getTestCIDs_eq_generateSpec (n : Nat) :
    TestClient.getTestCIDs n = generateSpec n := by
  unfold TestClient.getTestCIDs generateSpec
  rw [getTestCIDsFrom_eq_map n (List.replicate 8 0) 0 (by simp), List.range_eq_range']

theorem generator_head_mismatch :
    cidV1Raw (mhSum (dhttestBase ++ [0 % 256])) ≠
      cidV1Raw (mhSum (dhttestBase ++ leUint64 0)) := by
  decide

/-- Claim C5 counterexample: already for count 1 the tester and the test-client
produce different identifier sequences, because the tester hashes the base label
followed by the single byte i mod 256 while the test-client hashes the base label
followed by the 8-byte little-endian encoding of i. -/
theorem C5_counterexample : Tester.getTestCIDs 1 ≠ TestClient.getTestCIDs 1 := by
  decide

/-- Claim C5 (amended): the test-client generator computes exactly the function
the spec describes (hash of base-label concatenated with little-endian index,
wrapped in the fixed codec and version), but the tester generator appends only
the single low byte of the index, and the two sequences disagree for every
count of at least 1. -/
theorem C5_generators_differ :
    (∀ n, TestClient.getTestCIDs n = generateSpec n) ∧
      (∀ n, 1 ≤ n → Tester.getTestCIDs n ≠ TestClient.getTestCIDs n) := by
  refine ⟨testClient_getTestCIDs_eq_generateSpec, ?_⟩
  intro n hn heq
  obtain ⟨m, rfl⟩ : ∃ m, n = m + 1 := ⟨n - 1, by omega⟩
  rw [testClient_getTestCIDs_eq_generateSpec] at heq
  unfold Tester.getTestCIDs generateSpec at heq
  rw [List.range_succ_eq_map, List.map_cons, List.map_cons] at heq
  injection heq with h1 _
  exact generator_head_mismatch h1

/-- Claim C5 witness: the amended theorem applied at concrete counts. -/
theorem C5_generators_differ_witness :
    TestClient.getTestCIDs 2 = generateSpec 2 ∧
      Tester.getTestCIDs 2 ≠ TestClient.getTestCIDs 2 :=
  ⟨C5_generators_differ.1 2, C5_generators_differ.2 2 (by norm_num)⟩

/-- Claim C6: the test-client identifier generator is deterministic: its only
mutable state is the scratch buffer reused across loop iterations, and the
generated sequence is independent of the prior contents of that 8-byte buffer,
so two invocations with the same count produce identical sequences. -/
theorem C6_generator_deterministic (n : Nat) (b : List Nat) (hb : b.length = 8) :
    TestClient.getTestCIDsFrom b 0 n = TestClient.getTestCIDs n := by
  unfold TestClient.getTestCIDs
  rw [getTestCIDsFrom_eq_map n b 0 hb,
      getTestCIDsFrom_eq_map n (List.replicate 8 0) 0 (by simp)]

/-- Claim C6 witness: two runs of the generator loop from different buffer
states agree at a concrete count. -/
theorem C6_generator_deterministic_witness :
    TestClient.getTestCIDsFrom [8, 7, 6, 5, 4, 3, 2, 1] 0 1 = TestClient.getTestCIDs 1 :=
  C6_generator_deterministic 1 [8, 7, 6, 5, 4, 3, 2, 1] (by decide)

/-! ## Fleet, node operations and the RPC dispatch layer

src/rpc.go guards each handler with req.HostIndex >= len(s.hosts) and then
indexes the fleet slice.  Go slice indexing with an index that is negative
(or otherwise out of range) is a runtime panic, embedded here as a distinct
outcome constructor.  The DHT calls a node makes (dht.Provide,
dht.FindProviders) are oracle fields of the node.
-/

abbrev PeerID := Nat

structure AddrInfo where
  id : PeerID
  addrs : List String
deriving DecidableEq

structure Node where
  pid : PeerID
  provideRes : Cid → Option String
  findRes : Cid → Int → Except String (List AddrInfo)

inductive RPCOutcome (α : Type) where
  | ok (a : α)
  | err (msg : String)
  | panicked
deriving DecidableEq

/-- Go slice indexing with an int index: a well-formed access yields the
element, any other access (negative included) is a runtime panic. -/
def goIndex (nodes : List Node) (i : Int) : Option Node :=
  if 0 ≤ i then nodes.get? i.toNat else none

/-- Embeds src/host.go provide (lines 146 to 156): every identifier in the
batch is announced through the DHT; a failed announce is logged and the loop
continues with the next identifier.  The returned trace records each announce
attempt together with the oracle outcome of that dht.Provide call. -/
def hostProvide (nd : Node) (cids : List Cid) : List (Cid × Option String) :=
  cids.map (fun c => (c, nd.provideRes c))

/-- Modelled from the spec: the two-argument, error-returning host lookup that
the dht_lookup handler in src/rpc.go calls is absent from src/ (src/host.go
holds an older one-argument snapshot that logs and swallows the query error).
Per section 4.2, lookup(identifier, prefixLength) queries the attached DHT
instance for providers, returns the discovered records (possibly empty) as a
non-error outcome, and surfaces only transport or protocol errors as a
LookupError. -/
def hostLookup (nd : Node) (target : Cid) (prefixLength : Int) :
    Except String (List AddrInfo) :=
  nd.findRes target prefixLength

/-- Embeds DHTService.Provide (src/rpc.go lines 106 to 113).  The second
component is the trace of dht.Provide announce attempts made by node logic. -/
def rpcProvide (nodes : List Node) (hostIndex : Int) (cids : List Cid) :
    RPCOutcome Unit × List (Cid × Option String) :=
  if (nodes.length : Int) ≤ hostIndex then (.err "host index too high", [])
  else
    match goIndex nodes hostIndex with
    | none => (.panicked, [])
    | some nd => (.ok (), hostProvide nd cids)

/-- Embeds DHTService.Lookup (src/rpc.go lines 125 to 137).  The second
component is the trace of DHT queries issued by node logic. -/
def rpcLookup (nodes : List Node) (hostIndex : Int) (target : Cid)
    (prefixLength : Int) : RPCOutcome (List AddrInfo) × List (Cid × Int) :=
  if (nodes.length : Int) ≤ hostIndex then (.err "host index too high", [])
  else
    match goIndex nodes hostIndex with
    | none => (.panicked, [])
    | some nd =>
      match hostLookup nd target prefixLength with
      | .error e => (.err e, [(target, prefixLength)])
      | .ok provs => (.ok provs, [(target, prefixLength)])

/-- Embeds DHTService.Id (src/rpc.go lines 147 to 154). -/
def rpcId (nodes : List Node) (hostIndex : Int) : RPCOutcome PeerID :=
  if (nodes.length : Int) ≤ hostIndex then .err "host index too high"
  else
    match goIndex nodes hostIndex with
    | none => .panicked
    | some nd => .ok nd.pid

/-- Concrete node whose DHT oracles always succeed (announce succeeds, query
returns no providers). -/
def nodeStub : Node :=
  { pid := 0, provideRes := fun _ => none, findRes := fun _ _ => Except.ok [] }

/-- Concrete node whose DHT query fails with a transport error. -/
def nodeErr : Node :=
  { pid := 1, provideRes := fun _ => some "announce failed",
    findRes := fun _ _ => Except.error "transport error" }

/-- Claim C1 counterexample: a dht_provide request with hostIndex equal to
negative one passes the high-index guard, so the handler indexes the fleet
slice and the access panics; the caller does not receive the index error. -/
theorem C1_counterexample :
    (rpcProvide [nodeStub] (-1) []).1 = RPCOutcome.panicked ∧
      (rpcProvide [nodeStub] (-1) []).1 ≠ RPCOutcome.err "host index too high" ∧
      (rpcLookup [nodeStub] (-1) [7] 0).1 = RPCOutcome.panicked ∧
      rpcId [nodeStub] (-1) = RPCOutcome.panicked := by
  refine ⟨rfl, by decide, rfl, rfl⟩

/-- Claim C1 (amended): for the three RPC methods taking a host index, a
request with hostIndex at least numHosts yields the host-index-too-high error
and no node logic runs; a request with negative hostIndex instead passes the
guard and the handler panics at the fleet-slice access, again without node
logic running but without the index error being returned. -/
theorem C1_index_guard (nodes : List Node) (idx : Int) (cids : List Cid)
    (target : Cid) (prefixLength : Int) :
    ((nodes.length : Int) ≤ idx →
      rpcProvide nodes idx cids = (.err "host index too high", []) ∧
        rpcLookup nodes idx target prefixLength = (.err "host index too high", []) ∧
        rpcId nodes idx = .err "host index too high") ∧
      (idx < 0 →
        rpcProvide nodes idx cids = (.panicked, []) ∧
          rpcLookup nodes idx target prefixLength = (.panicked, []) ∧
          rpcId nodes idx = .panicked) := by
  constructor
  · intro h
    refine ⟨?_, ?_, ?_⟩ <;> simp [rpcProvide, rpcLookup, rpcId, if_pos h]
  · intro h
    have hg : ¬ ((nodes.length : Int) ≤ idx) := by omega
    have hni : ¬ (0 ≤ idx) := by omega
    refine ⟨?_, ?_, ?_⟩ <;> simp [rpcProvide, rpcLookup, rpcId, goIndex, hg, hni]

/-- Claim C1 witness: the amended theorem applied at concrete requests. -/
theorem C1_index_guard_witness :
    rpcProvide [nodeStub] 3 [] = (.err "host index too high", []) ∧
      rpcId [nodeStub] (-2) = RPCOutcome.panicked :=
  ⟨((C1_index_guard [nodeStub] 3 [] [] 0).1 (by norm_num)).1,
   ((C1_index_guard [nodeStub] (-2) [] [] 0).2 (by norm_num)).2.2⟩

/-- Claim C10: for every in-range host index, dht_provide returns success no
matter what the per-identifier DHT announce outcomes are, and node logic
attempts the announce for every identifier in the batch: per-identifier
failures are invisible to the RPC caller. -/
theorem C10_provide_always_ok (nodes : List Node) (idx : Int) (cids : List Cid)
    (h0 : 0 ≤ idx) (h1 : idx < (nodes.length : Int)) :
    (rpcProvide nodes idx cids).1 = .ok () ∧
      (rpcProvide nodes idx cids).2.map Prod.fst = cids := by
  have hlt : idx.toNat < nodes.length := by omega
  have hg : ¬ ((nodes.length : Int) ≤ idx) := by omega
  have hnd : goIndex nodes idx = some (nodes.get ⟨idx.toNat, hlt⟩) := by
    simp [goIndex, h0, List.get?_eq_get hlt]
  refine ⟨?_, ?_⟩ <;> simp [rpcProvide, hg, hnd, hostProvide]
  induction cids with
  | nil => rfl
  | cons c t ih => simpa using ih

/-- Claim C10 witness: a node whose every announce fails still yields a
successful dht_provide response, with both identifiers attempted. -/
theorem C10_provide_always_ok_witness :
    (rpcProvide [nodeErr] 0 [[5], [6]]).1 = .ok () ∧
      (rpcProvide [nodeErr] 0 [[5], [6]]).2.map Prod.fst = [[5], [6]] :=
  C10_provide_always_ok [nodeErr] 0 [[5], [6]] (by norm_num) (by norm_num)

/-- Claim C8: with the host lookup modelled from the spec, an in-range
dht_lookup forwards the DHT query verbatim: a successful query result, the
empty provider list included, is returned as a non-error response, and a
transport error from the query surfaces as the RPC error. -/
theorem C8_lookup_error_surface (nodes : List Node) (idx : Int) (nd : Node)
    (target : Cid) (prefixLength : Int)
    (h1 : idx < (nodes.length : Int)) (hnd : goIndex nodes idx = some nd) :
    (∀ provs, nd.findRes target prefixLength = .ok provs →
        rpcLookup nodes idx target prefixLength = (.ok provs, [(target, prefixLength)])) ∧
      (∀ e, nd.findRes target prefixLength = .error e →
        rpcLookup nodes idx target prefixLength = (.err e, [(target, prefixLength)])) := by
  have hg : ¬ ((nodes.length : Int) ≤ idx) := by omega
  constructor
  · intro provs hok
    simp [rpcLookup, hg, hnd, hostLookup, hok]
  · intro e herr
    simp [rpcLookup, hg, hnd, hostLookup, herr]

/-- Claim C8 witness: a node with no providers yields an ok empty list, a node
with a failing transport yields the error, both through the RPC layer. -/
theorem C8_lookup_error_surface_witness :
    rpcLookup [nodeStub] 0 [7] 0 = (.ok [], [([7], 0)]) ∧
      rpcLookup [nodeErr] 0 [7] 0 = (.err "transport error", [([7], 0)]) :=
  ⟨(C8_lookup_error_surface [nodeStub] 0 nodeStub [7] 0 (by norm_num) rfl).1 [] rfl,
   (C8_lookup_error_surface [nodeErr] 0 nodeErr [7] 0 (by norm_num) rfl).2 "transport error" rfl⟩

/-! ## The auto-test periodic tick (src/host.go start and getRandTestCID) -/

/-- Embeds src/host.go getRandTestCID with the random draw as an oracle:
rand.Int(rand.Reader, big.NewInt(int64(len(cids)))) panics when its bound is
not positive, that is exactly when the identifier set is empty; none models
that panic. -/
def getRandTestCID (cids : List Cid) (r : Nat) : Option Cid :=
  if cids.length = 0 then none
  else some (cids.getD (r % cids.length) [])

inductive TickResult where
  | skipped
  | panicked
  | ran (provided : Cid) (lookedUp : Cid)
deriving DecidableEq

/-- Embeds one tick of the background loop in src/host.go start (lines 94 to
127): without auto-test the tick is skipped; with auto-test the node draws a
random test identifier, provides it, draws another and looks it up; a panic in
either draw crashes the goroutine. -/
def tickOnce (autoTest : Bool) (cids : List Cid) (r1 r2 : Nat) : TickResult :=
  if autoTest = false then .skipped
  else
    match getRandTestCID cids r1, getRandTestCID cids r2 with
    | some c1, some c2 => .ran c1 c2
    | _, _ => .panicked

/-- Claim C9: drawing a pseudo-random test identifier from an empty identifier
set panics, so a node with auto-test enabled and num-test-cids set to zero
(whose generated identifier set is empty) panics on the first periodic tick,
while without auto-test the tick is skipped. -/
theorem C9_empty_cids_tick_panics :
    (∀ r, getRandTestCID [] r = none) ∧
      Tester.getTestCIDs 0 = [] ∧
      (∀ r1 r2, tickOnce true (Tester.getTestCIDs 0) r1 r2 = .panicked) ∧
      (∀ r1 r2, tickOnce false (Tester.getTestCIDs 0) r1 r2 = .skipped) := by
  refine ⟨fun r => rfl, rfl, fun r1 r2 => rfl, fun r1 r2 => rfl⟩

/-! ## CLI lookup command (src/cmd/client/main.go runLookup, lines 130 to 159) -/

def errInvalidPrefixLength : String := "prefix-length must be less than 256"

def pow63 : Nat := 9223372036854775808

def pow64 : Nat := 18446744073709551616

/-- Embeds the Go conversion int(u) of a 64-bit unsigned value on a 64-bit
platform: values below 2 to the 63 are preserved, larger ones wrap to
negative by two's complement. -/
def goIntOfUint (u : Nat) : Int :=
  if u % pow64 < pow63 then (u % pow64 : Int) else (u % pow64 : Int) - (pow64 : Int)

structure CLILookupEnv where
  cidStr : String
  decode : String → Except String Cid
  hostIndex : Int
  prefixLengthFlag : Nat
  rpcLookupRes : Except String (List AddrInfo)

/-- Embeds runLookup: an empty cid flag and a failed decode abort first; the
prefix-length flag, a parsed 64-bit unsigned value, is converted with
int(c.Uint(...)) - embedded as goIntOfUint - and the resulting int is
validated against 256 before the RPC client is invoked; the second component
is the trace of RPC lookup calls issued, carrying the converted int. -/
def runLookup (env : CLILookupEnv) :
    Except String (List AddrInfo) × List (Int × Cid × Int) :=
  if env.cidStr = "" then (.error "must provide --cid", [])
  else
    match env.decode env.cidStr with
    | .error e => (.error e, [])
    | .ok target =>
      if 256 < goIntOfUint env.prefixLengthFlag then (.error errInvalidPrefixLength, [])
      else
        match env.rpcLookupRes with
        | .error e =>
          (.error ("failed to look up: " ++ e),
           [(env.hostIndex, target, goIntOfUint env.prefixLengthFlag)])
        | .ok provs =>
          (.ok provs, [(env.hostIndex, target, goIntOfUint env.prefixLengthFlag)])

/-- Concrete CLI environment whose prefix-length flag, 2 to the 63, wraps to
the negative int that passes the greater-than-256 check. -/
def cliEnvWrap : CLILookupEnv where
  cidStr := "bafy"
  decode := fun _ => Except.ok [7]
  hostIndex := 0
  prefixLengthFlag := 9223372036854775808
  rpcLookupRes := Except.ok []

/-- Claim C7 counterexample: a dht_lookup RPC request with prefixLength 300 and
a valid host index is not rejected: the handler forwards the query to the
node's DHT lookup (the trace records the issued query) and returns the query
result, not a validation error.  On the CLI side, the flag value 2 to the 63
wraps through int(c.Uint(...)) to a negative prefix length that passes the
greater-than-256 check, so the RPC call is issued carrying a prefixLength far
outside the range instead of being rejected. -/
theorem C7_counterexample :
    (rpcLookup [nodeStub] 0 [7] 300).2 = [([7], 300)] ∧
      (rpcLookup [nodeStub] 0 [7] 300).1 = RPCOutcome.ok [] ∧
      runLookup cliEnvWrap = (.ok [], [(0, [7], -9223372036854775808)]) := by
  refine ⟨rfl, rfl, ?_⟩
  show runLookup cliEnvWrap = (.ok [], [(0, [7], -9223372036854775808)])
  unfold runLookup cliEnvWrap
  rw [if_neg (by decide : ¬ ("bafy" = ""))]
  norm_num [goIntOfUint, pow63, pow64]

/-- Claim C7 (amended): the CLI lookup command converts the unsigned
prefix-length flag with int(c.Uint(...)) and rejects the call with the
CLI-level validation error, before issuing any RPC call, exactly when the
converted int exceeds 256; a flag value of at least 2 to the 63 however wraps
to a negative int, passes that check, and is forwarded to the RPC carrying a
prefix length outside the range.  The RPC layer itself performs no
prefix-length validation and forwards every value, in range or not, to the
node DHT query. -/
theorem C7_prefix_validation (env : CLILookupEnv) (target : Cid) :
    (256 < goIntOfUint env.prefixLengthFlag → (runLookup env).2 = []) ∧
      (env.cidStr ≠ "" → env.decode env.cidStr = .ok target →
        256 < goIntOfUint env.prefixLengthFlag →
        runLookup env = (.error errInvalidPrefixLength, [])) ∧
      (pow63 ≤ env.prefixLengthFlag % pow64 →
        env.cidStr ≠ "" → env.decode env.cidStr = .ok target →
        goIntOfUint env.prefixLengthFlag < 0 ∧
          (runLookup env).2 =
            [(env.hostIndex, target, goIntOfUint env.prefixLengthFlag)]) ∧
      (∀ nodes nd idx tgt prefixLength, goIndex nodes idx = some nd →
        idx < (nodes.length : Int) →
        (rpcLookup nodes idx tgt prefixLength).2 = [(tgt, prefixLength)]) := by
  refine ⟨?_, ?_, ?_, ?_⟩
  · intro hpl
    unfold runLookup
    by_cases hc : env.cidStr = ""
    · simp [hc]
    · simp only [hc, if_neg, ite_false]
      match hdec : env.decode env.cidStr with
      | .error e => simp
      | .ok t => simp [if_pos hpl]
  · intro hc hdec hpl
    unfold runLookup
    simp [hc, hdec, if_pos hpl]
  · intro hwrap hc hdec
    have hm : env.prefixLengthFlag % pow64 < pow64 :=
      Nat.mod_lt _ (by norm_num [pow64])
    have hneg : goIntOfUint env.prefixLengthFlag < 0 := by
      unfold goIntOfUint
      rw [if_neg (by omega)]
      omega
    refine ⟨hneg, ?_⟩
    unfold runLookup
    rw [if_neg hc]
    simp only [hdec]
    rw [if_neg (by omega : ¬ (256 < goIntOfUint env.prefixLengthFlag))]
    rcases hres : env.rpcLookupRes with e | provs <;> simp [hres]
  · intro nodes nd idx tgt prefixLength hnd hlt
    have hg : ¬ ((nodes.length : Int) ≤ idx) := by omega
    unfold rpcLookup
    rw [if_neg hg, hnd]
    cases hres : hostLookup nd tgt prefixLength with
    | error e => simp [hres]
    | ok provs => simp [hres]

/-- Concrete CLI environment carrying an out-of-range prefix-length flag. -/
def cliEnv300 : CLILookupEnv where
  cidStr := "bafy"
  decode := fun _ => Except.ok [7]
  hostIndex := 0
  prefixLengthFlag := 300
  rpcLookupRes := Except.ok []

/-- Claim C7 witness: the amended theorem applied to a concrete CLI invocation
with prefix-length 300 (rejected), to one with flag 2 to the 63 (wraps
negative, not rejected), and to a concrete RPC request with prefixLength 300
(forwarded). -/
theorem C7_prefix_validation_witness :
    runLookup cliEnv300 = (.error errInvalidPrefixLength, []) ∧
      goIntOfUint cliEnvWrap.prefixLengthFlag < 0 ∧
      (rpcLookup [nodeStub] 0 [7] 300).2 = [([7], 300)] :=
  ⟨(C7_prefix_validation cliEnv300 [7]).2.1 (by decide) rfl (by decide),
   ((C7_prefix_validation cliEnvWrap [7]).2.2.1 (by decide) (by decide) rfl).1,
   (C7_prefix_validation cliEnv300 [7]).2.2.2 [nodeStub] nodeStub 0 [7] 300 rfl (by norm_num)⟩

/-! ## Bootstrap procedure (src/host.go bootstrap, lines 171 to 199) -/

theorem filter_length_eq_iff (p : Nat → Bool) (l : List Nat) :
    (l.filter p).length = l.length ↔ ∀ b ∈ l, p b = true := by
  induction l with
  | nil => simp
  | cons a t ih =>
    by_cases hp : p a = true
    · rw [List.filter_cons_of_pos hp]
      simp only [List.length_cons, Nat.add_right_cancel_iff, ih, List.forall_mem_cons, hp,
        true_and]
    · rw [List.filter_cons_of_neg (by simpa using hp)]
      have hle := List.length_filter_le p t
      simp only [List.length_cons]
      constructor
      · intro h; omega
      · intro h; exact absurd (h a (List.mem_cons_self a t)) hp

inductive BootResult where
  | bootstrapped
  | failedToBootstrap
  | dhtError (e : String)
deriving DecidableEq

/-- An entry of the bootstrap registry is counted into failed exactly when it
is not skipped (its peer identifier differs from the connecting node) and the
connection attempt, given by the oracle conn, fails. -/
def bootstrapAttemptFailed (selfId : PeerID) (conn : PeerID → Bool) (b : PeerID) : Bool :=
  b != selfId && !(conn b)

/-- Embeds src/host.go bootstrap: every registry entry other than the node
itself is attempted, failures are counted, and errFailedToBootstrap is
returned when the failure count equals the full registry length and the
registry is non-empty; otherwise the DHT warm-up runs, whose oracle outcome
is a distinct error. -/
def bootstrap (selfId : PeerID) (bootnodes : List PeerID) (conn : PeerID → Bool)
    (dhtBootstrapRes : Option String) : BootResult :=
  if (bootnodes.filter (bootstrapAttemptFailed selfId conn)).length = bootnodes.length
      ∧ bootnodes.length ≠ 0 then .failedToBootstrap
  else
    match dhtBootstrapRes with
    | some e => .dhtError e
    | none => .bootstrapped

/-- Claim C2 counterexample: a node whose own record sits in a non-empty
registry (the normal fleet configuration) succeeds even though its only
attempted connection failed, because the failure count is compared with the
full registry length, own record included. -/
theorem C2_counterexample :
    bootstrap 0 [0, 1] (fun _ => false) none = .bootstrapped ∧
      bootstrap 0 [0, 1] (fun _ => false) none ≠ .failedToBootstrap := by
  refine ⟨rfl, by decide⟩

/-- Claim C2 (amended): bootstrap returns errFailedToBootstrap iff the
registry is non-empty and every registry entry both differs from the node
itself and failed to connect; in particular, when the node own record is
present in the registry the failure state is unreachable.  An empty registry
still bootstraps (given the DHT warm-up succeeds), and any single successful
connection attempt rules the failure state out. -/
theorem C2_bootstrap_conditions (selfId : PeerID) (bootnodes : List PeerID)
    (conn : PeerID → Bool) (dhtRes : Option String) :
    (bootstrap selfId bootnodes conn dhtRes = .failedToBootstrap ↔
      bootnodes ≠ [] ∧ ∀ b ∈ bootnodes, b ≠ selfId ∧ conn b = false) ∧
      (bootnodes = [] → dhtRes = none →
        bootstrap selfId bootnodes conn dhtRes = .bootstrapped) ∧
      (∀ b ∈ bootnodes, b ≠ selfId → conn b = true →
        bootstrap selfId bootnodes conn dhtRes ≠ .failedToBootstrap) := by
  have hiff : ((bootnodes.filter (bootstrapAttemptFailed selfId conn)).length = bootnodes.length
      ∧ bootnodes.length ≠ 0)
      ↔ (bootnodes ≠ [] ∧ ∀ b ∈ bootnodes, b ≠ selfId ∧ conn b = false) := by
    rw [filter_length_eq_iff]
    constructor
    · rintro ⟨hall, hne⟩
      refine ⟨by intro h; simp [h] at hne, ?_⟩
      intro b hb
      have hba := hall b hb
      simpa [bootstrapAttemptFailed] using hba
    · rintro ⟨hne, hall⟩
      refine ⟨?_, by simpa [List.length_eq_zero] using hne⟩
      intro b hb
      have hba := hall b hb
      simp [bootstrapAttemptFailed, hba.1, hba.2]
  have hmain : bootstrap selfId bootnodes conn dhtRes = .failedToBootstrap ↔
      bootnodes ≠ [] ∧ ∀ b ∈ bootnodes, b ≠ selfId ∧ conn b = false := by
    rw [← hiff]
    unfold bootstrap
    by_cases hc : (List.filter (bootstrapAttemptFailed selfId conn) bootnodes).length
        = bootnodes.length ∧ bootnodes.length ≠ 0
    · rw [if_pos hc]
      simp [hc]
    · rw [if_neg hc]
      cases dhtRes <;> simp [hc] <;>
        exact fun hall => List.length_eq_zero.mp (not_ne_iff.mp fun hB =>
          hc ⟨(filter_length_eq_iff _ _).mpr hall, hB⟩)
  refine ⟨hmain, ?_, ?_⟩
  · intro h1 h2
    subst h1; subst h2
    simp [bootstrap]
  · intro b hb hbs hcb heq
    have hfb := ((hmain.mp heq).2 b hb).2
    rw [hcb] at hfb
    exact Bool.noConfusion hfb

/-- Claim C2 witness: the amended theorem applied at concrete registries: a
registry without the node own record where every attempt fails reaches the
failure state, an empty registry bootstraps, and one successful attempt
prevents the failure state. -/
theorem C2_bootstrap_conditions_witness :
    bootstrap 5 [0, 1] (fun _ => false) none = .failedToBootstrap ∧
      bootstrap 5 ([] : List PeerID) (fun _ => false) none = .bootstrapped ∧
      bootstrap 0 [0, 1] (fun _ => true) none ≠ .failedToBootstrap :=
  ⟨(C2_bootstrap_conditions 5 [0, 1] (fun _ => false) none).1.mpr (by decide),
   (C2_bootstrap_conditions 5 [] (fun _ => false) none).2.1 rfl rfl,
   (C2_bootstrap_conditions 0 [0, 1] (fun _ => true) none).2.2 1 (by decide) (by decide) rfl⟩

/-! ## Verification phase

The tester driver (the lookup function of the driver snapshot in
src/cmd/client/main.go, file lines 311 to 349) checks, for each assignment
map entry and each host, the lookup outcome: a transport error aborts, an
empty result aborts, and a returned provider absent from the expected set
aborts; the exact-size comparison present in the older test-client driver
(src/cmd/testclient/main.go lines 114 to 132) is commented out there.  The
test-client driver checks only the transport error and the exact size.
-/

inductive VerifErr where
  | lookupFailed (key : Cid) (host : Nat)
  | noProviders (key : Cid) (host : Nat)
  | unexpectedProvider (key : Cid) (host : Nat)
deriving DecidableEq

def VerifErr.key : VerifErr → Cid
  | .lookupFailed k _ => k
  | .noProviders k _ => k
  | .unexpectedProvider k _ => k

def VerifErr.host : VerifErr → Nat
  | .lookupFailed _ h => h
  | .noProviders _ h => h
  | .unexpectedProvider _ h => h

/-- Embeds the per identifier-and-host body of the tester driver lookup: the
expected set is the assignment map entry, the result is the RPC lookup
outcome for that host. -/
def checkPair (expected : List PeerID) (key : Cid) (host : Nat)
    (res : Except String (List AddrInfo)) : Option VerifErr :=
  match res with
  | .error _ => some (.lookupFailed key host)
  | .ok found =>
    if found.length = 0 then some (.noProviders key host)
    else
      match found.find? (fun f => !(expected.contains f.id)) with
      | some _ => some (.unexpectedProvider key host)
      | none => none

inductive TCVerifErr where
  | lookupFailed (key : Cid) (host : Nat)
  | lengthMismatch (foundLen : Nat) (expectedLen : Nat)
deriving DecidableEq

/-- Embeds the per identifier-and-host body of the test-client driver lookup
(src/cmd/testclient/main.go lines 114 to 132): only the transport error and
the exact result size are checked; the length-mismatch error does not name
the identifier or the host. -/
def tcCheckPair (expected : List PeerID) (key : Cid) (host : Nat)
    (res : Except String (List AddrInfo)) : Option TCVerifErr :=
  match res with
  | .error _ => some (.lookupFailed key host)
  | .ok found =>
    if found.length ≠ expected.length then some (.lengthMismatch found.length expected.length)
    else none

/-- Iterates the tester driver inner loop over hosts i, i+1, ... for fuel
steps, aborting at the first failing pair. -/
def verifyKeyFrom (lk : Nat → Except String (List AddrInfo)) (expected : List PeerID)
    (key : Cid) : Nat → Nat → Option VerifErr
  | _, 0 => none
  | i, fuel + 1 =>
    match checkPair expected key i (lk i) with
    | some e => some e
    | none => verifyKeyFrom lk expected key (i + 1) fuel

/-- Embeds the tester driver outer loop over assignment map entries, each
entry checked against every host index below numHosts. -/
def verifyAll (lk : Cid → Nat → Except String (List AddrInfo)) (numHosts : Nat) :
    List (Cid × List PeerID) → Option VerifErr
  | [] => none
  | (key, expected) :: rest =>
    match verifyKeyFrom (lk key) expected key 0 numHosts with
    | some e => some e
    | none => verifyAll lk numHosts rest

theorem find?_isSome_iff (p : AddrInfo → Bool) (l : List AddrInfo) :
    (l.find? p).isSome = true ↔ ∃ x ∈ l, p x = true := by
  induction l with
  | nil => simp
  | cons a t ih =>
    by_cases hp : p a = true
    · simp [List.find?_cons_of_pos _ hp, hp]
    · rw [List.find?_cons_of_neg _ (by simpa using hp)]
      simp [ih, hp]

theorem checkPair_isSome_iff (expected : List PeerID) (key : Cid) (host : Nat)
    (found : List AddrInfo) :
    (checkPair expected key host (.ok found)).isSome = true ↔
      found = [] ∨ ∃ f ∈ found, f.id ∉ expected := by
  simp only [checkPair]
  by_cases h0 : found.length = 0
  · simp [if_pos h0, List.length_eq_zero.mp h0]
  · rw [if_neg h0]
    rcases hf : found.find? (fun f => !(expected.contains f.id)) with _ | f
    · have hnone : ¬ ∃ f ∈ found, f.id ∉ expected := by
        intro ⟨f, hmem, hnotin⟩
        have hs : (found.find? (fun f => !(expected.contains f.id))).isSome = true :=
          (find?_isSome_iff _ _).mpr ⟨f, hmem, by simpa using hnotin⟩
        rw [hf] at hs
        exact Bool.noConfusion hs
      rw [hf]
      constructor
      · intro hfalse
        exact absurd hfalse (by simp)
      · rintro (hnil | hex)
        · exact absurd (List.length_eq_zero.mpr hnil) h0
        · exact absurd hex hnone
    · have hsome : ∃ g ∈ found, g.id ∉ expected := by
        have hs : (found.find? (fun f => !(expected.contains f.id))).isSome = true := by
          rw [hf]; rfl
        obtain ⟨g, hmem, hg⟩ := (find?_isSome_iff _ _).mp hs
        exact ⟨g, hmem, by simpa using hg⟩
      rw [hf]
      simp only [Option.isSome_some, true_iff]
      exact Or.inr hsome

theorem verifyKeyFrom_eq_none_iff (lk : Nat → Except String (List AddrInfo))
    (expected : List PeerID) (key : Cid) (fuel : Nat) :
    ∀ i, verifyKeyFrom lk expected key i fuel = none ↔
      ∀ j, i ≤ j → j < i + fuel → checkPair expected key j (lk j) = none := by
  induction fuel with
  | zero => intro i; simp [verifyKeyFrom]; intro j h1 h2; omega
  | succ n ih =>
    intro i
    unfold verifyKeyFrom
    rcases hc : checkPair expected key i (lk i) with _ | e
    · rw [ih (i + 1)]
      constructor
      · intro h j h1 h2
        rcases Nat.eq_or_lt_of_le h1 with rfl | hlt
        · exact hc
        · exact h j hlt (by omega)
      · intro h j h1 h2
        exact h j (by omega) (by omega)
    · constructor
      · intro h
        exact absurd h (by simp)
      · intro h
        have hh := h i (Nat.le_refl i) (by omega)
        rw [hc] at hh
        exact absurd hh (by simp)

theorem verifyAll_eq_none_iff (lk : Cid → Nat → Except String (List AddrInfo))
    (numHosts : Nat) (m : List (Cid × List PeerID)) :
    verifyAll lk numHosts m = none ↔
      ∀ p ∈ m, ∀ j < numHosts, checkPair p.2 p.1 j (lk p.1 j) = none := by
  induction m with
  | nil => simp [verifyAll]
  | cons q rest ih =>
    obtain ⟨key, expected⟩ := q
    have hkey : verifyKeyFrom (lk key) expected key 0 numHosts = none ↔
        ∀ j < numHosts, checkPair expected key j (lk key j) = none := by
      rw [verifyKeyFrom_eq_none_iff]
      constructor
      · intro h j hj; exact h j (Nat.zero_le j) (by omega)
      · intro h j _ hj; exact h j (by omega)
    simp only [verifyAll]
    rcases hk : verifyKeyFrom (lk key) expected key 0 numHosts with _ | e
    · show verifyAll lk numHosts rest = none ↔ _
      rw [ih]
      simp only [List.forall_mem_cons]
      constructor
      · intro h; exact ⟨hkey.mp hk, h⟩
      · intro h; exact h.2
    · show some e = none ↔ _
      simp only [List.forall_mem_cons]
      constructor
      · intro h; exact absurd h (by simp)
      · rintro ⟨h1, _⟩
        rw [hkey.mpr h1] at hk
        exact Option.noConfusion hk

/-- Claim C3 counterexample: the test-client driver accepts a lookup result
consisting solely of a peer absent from the expected set (sizes agree, so no
error, contradicting the claim that such a result fails verification), and it
rejects a result that repeats an expected peer (size mismatch alone,
contradicting the claim that a size mismatch alone does not fail), with an
error naming neither the identifier nor the host. -/
theorem C3_counterexample :
    tcCheckPair [0] [9] 1 (Except.ok [AddrInfo.mk 1 []]) = none ∧
      tcCheckPair [0] [9] 1 (Except.ok [AddrInfo.mk 0 [], AddrInfo.mk 0 []])
        = some (.lengthMismatch 2 1) := by
  refine ⟨rfl, rfl⟩

/-- Claim C3 (amended): in the tester driver (cmd/client), a pair consisting
of an identifier and a host fails verification iff the lookup result is empty
or contains a peer identifier absent from the expected set: subsets of the
expected set pass and a size mismatch alone does not fail; every failure
names the identifier and the host, and the overall run succeeds iff every
entry-host pair passes.  The legacy test-client driver instead fails a pair
iff the result size differs from the expected size, performing no emptiness
or membership check and naming neither identifier nor host. -/
theorem C3_verification_check (expected : List PeerID) (key : Cid) (host : Nat)
    (found : List AddrInfo) (lk : Cid → Nat → Except String (List AddrInfo))
    (numHosts : Nat) (m : List (Cid × List PeerID)) :
    ((checkPair expected key host (.ok found)).isSome = true ↔
        found = [] ∨ ∃ f ∈ found, f.id ∉ expected) ∧
      (∀ e, checkPair expected key host (.ok found) = some e →
        e.key = key ∧ e.host = host) ∧
      (verifyAll lk numHosts m = none ↔
        ∀ p ∈ m, ∀ j < numHosts, checkPair p.2 p.1 j (lk p.1 j) = none) ∧
      ((tcCheckPair expected key host (.ok found)).isSome = true ↔
        found.length ≠ expected.length) := by
  refine ⟨checkPair_isSome_iff expected key host found, ?_, verifyAll_eq_none_iff lk numHosts m, ?_⟩
  · intro e he
    simp only [checkPair] at he
    by_cases h0 : found.length = 0
    · rw [if_pos h0] at he
      cases he
      exact ⟨rfl, rfl⟩
    · rw [if_neg h0] at he
      rcases hf : found.find? (fun f => !(expected.contains f.id)) with _ | f <;> rw [hf] at he
      · exact Option.noConfusion he
      · cases he
        exact ⟨rfl, rfl⟩
  · simp only [tcCheckPair]
    by_cases hl : found.length = expected.length
    · simp [hl]
    · simp [hl]

/-- Claim C3 witness: the amended theorem applied to concrete results: an
unexpected provider fails the tester driver check, and a duplicated expected
provider (size mismatch) fails the test-client check. -/
theorem C3_verification_check_witness :
    (checkPair [0] [9] 1 (Except.ok [AddrInfo.mk 7 []])).isSome = true ∧
      (tcCheckPair [0] [9] 1 (Except.ok [AddrInfo.mk 0 [], AddrInfo.mk 0 []])).isSome = true :=
  ⟨(C3_verification_check [0] [9] 1 [AddrInfo.mk 7 []] (fun _ _ => Except.ok []) 0 []).1.mpr
      (Or.inr ⟨AddrInfo.mk 7 [], by decide, by decide⟩),
   (C3_verification_check [0] [9] 1 [AddrInfo.mk 0 [], AddrInfo.mk 0 []]
      (fun _ _ => Except.ok []) 0 []).2.2.2.mpr (by decide)⟩

/-! ## Assignment phase (src/cmd/client/main.go run, file lines 237 to 309)

For each identifier at position i the driver announces on host i mod numHosts
and on host (i + numHosts/2) mod numHosts, querying each host identity and
appending it to the assignment map entry of the identifier.  The Go map is
embedded as an association list; the trace records each providerAnnounce
invocation as a pair of host index and identifier.
-/

abbrev AssignMap := List (Cid × List PeerID)

def mapGet : AssignMap → Cid → Option (List PeerID)
  | [], _ => none
  | (k, v) :: t, c => if k = c then some v else mapGet t c

/-- Embeds the read-modify-write on provides: a fresh key gets the singleton
list, an existing key has the identity appended. -/
def addProvider : AssignMap → Cid → PeerID → AssignMap
  | [], c, pid => [(c, [pid])]
  | (k, v) :: t, c, pid =>
    if k = c then (k, v ++ [pid]) :: t else (k, v) :: addProvider t c pid

/-- Embeds the assignment loop body from index i onward: trace entries are the
providerAnnounce invocations in program order. -/
def assignFrom (numHosts : Nat) (idOf : Nat → PeerID) :
    Nat → List Cid → AssignMap → AssignMap × List (Nat × Cid)
  | _, [], m => (m, [])
  | i, c :: rest, m =>
    let idx1 := i % numHosts
    let m1 := addProvider m c (idOf idx1)
    let idx2 := (i + numHosts / 2) % numHosts
    let m2 := addProvider m1 c (idOf idx2)
    let r := assignFrom numHosts idOf (i + 1) rest m2
    (r.1, (idx1, c) :: (idx2, c) :: r.2)

def runAssignment (numHosts : Nat) (idOf : Nat → PeerID) (cids : List Cid) :
    AssignMap × List (Nat × Cid) :=
  assignFrom numHosts idOf 0 cids []

theorem mapGet_addProvider_self (m : AssignMap) (c : Cid) (pid : PeerID) :
    mapGet (addProvider m c pid) c = some ((mapGet m c).getD [] ++ [pid]) := by
  induction m with
  | nil => simp [addProvider, mapGet]
  | cons q t ih =>
    obtain ⟨k, v⟩ := q
    by_cases hk : k = c
    · simp [addProvider, mapGet, hk]
    · simp [addProvider, mapGet, hk, ih]

theorem mapGet_addProvider_ne (m : AssignMap) (c k : Cid) (pid : PeerID)
    (h : k ≠ c) : mapGet (addProvider m c pid) k = mapGet m k := by
  have hck : ¬ (c = k) := fun hh => h hh.symm
  induction m with
  | nil => simp [addProvider, mapGet, hck]
  | cons q t ih =>
    obtain ⟨k0, v⟩ := q
    by_cases hk : k0 = c
    · subst hk
      simp [addProvider, mapGet, hck]
    · simp [addProvider, mapGet, hk, ih]

theorem assignFrom_mapGet_not_mem (numHosts : Nat) (idOf : Nat → PeerID)
    (cids : List Cid) : ∀ (i : Nat) (m : AssignMap) (c : Cid), c ∉ cids →
      mapGet (assignFrom numHosts idOf i cids m).1 c = mapGet m c := by
  induction cids with
  | nil => intro i m c _; rfl
  | cons c0 rest ih =>
    intro i m c hc
    have hne : c ≠ c0 := fun h => hc (h ▸ List.mem_cons_self c0 rest)
    have hrest : c ∉ rest := fun h => hc (List.mem_cons_of_mem c0 h)
    simp only [assignFrom]
    rw [ih (i + 1) _ c hrest, mapGet_addProvider_ne _ _ _ _ hne,
        mapGet_addProvider_ne _ _ _ _ hne]

theorem assignFrom_mapGet_at (numHosts : Nat) (idOf : Nat → PeerID)
    (cids : List Cid) : ∀ (i j : Nat) (m : AssignMap) (c : Cid), cids.Nodup →
      cids.get? j = some c → mapGet m c = none →
      mapGet (assignFrom numHosts idOf i cids m).1 c =
        some [idOf ((i + j) % numHosts), idOf ((i + j + numHosts / 2) % numHosts)] := by
  induction cids with
  | nil => intro i j m c _ hj; exact absurd hj (by simp)
  | cons c0 rest ih =>
    intro i j m c hnd hj hm
    rcases j with _ | j
    · have hc : c = c0 := by simpa using hj.symm
      subst hc
      have hrest : c ∉ rest := (List.nodup_cons.mp hnd).1
      simp only [assignFrom]
      rw [assignFrom_mapGet_not_mem numHosts idOf rest (i + 1) _ c hrest,
          mapGet_addProvider_self, mapGet_addProvider_self, hm]
      simp
    · have hcrest : c ∈ rest := List.get?_mem hj
      have hne : c ≠ c0 := by
        intro h
        exact (List.nodup_cons.mp hnd).1 (h ▸ hcrest)
      have hm2 : mapGet (addProvider (addProvider m c0 (idOf (i % numHosts))) c0
          (idOf ((i + numHosts / 2) % numHosts))) c = none := by
        rw [mapGet_addProvider_ne _ _ _ _ hne, mapGet_addProvider_ne _ _ _ _ hne, hm]
      have := ih (i + 1) j _ c (List.nodup_cons.mp hnd).2 hj hm2
      simp only [assignFrom]
      rw [this]
      have h1 : i + 1 + j = i + (j + 1) := by omega
      rw [h1]

theorem assignFrom_trace (numHosts : Nat) (idOf : Nat → PeerID) (cids : List Cid) :
    ∀ (i : Nat) (m : AssignMap),
      (assignFrom numHosts idOf i cids m).2 =
        (cids.enumFrom i).flatMap
          (fun p => [(p.1 % numHosts, p.2), ((p.1 + numHosts / 2) % numHosts, p.2)]) := by
  induction cids with
  | nil => intro i m; rfl
  | cons c0 rest ih =>
    intro i m
    simp only [assignFrom]
    rw [ih (i + 1)]
    rfl

/-- Claim C4: in the assignment phase, with numHosts positive and the
generated identifiers distinct, the providerAnnounce trace consists, for the
identifier at each position i and in program order, of exactly the two
invocations on host i mod numHosts and host (i + numHosts/2) mod numHosts,
and the assignment map entry of that identifier afterwards holds exactly the
identities of those two hosts, in that order. -/
theorem C4_assignment (numHosts : Nat) (idOf : Nat → PeerID) (cids : List Cid)
    (_hpos : 0 < numHosts) (hnd : cids.Nodup) :
    (runAssignment numHosts idOf cids).2 =
      cids.enum.flatMap
        (fun p => [(p.1 % numHosts, p.2), ((p.1 + numHosts / 2) % numHosts, p.2)]) ∧
      ∀ j c, cids.get? j = some c →
        mapGet (runAssignment numHosts idOf cids).1 c =
          some [idOf (j % numHosts), idOf ((j + numHosts / 2) % numHosts)] := by
  constructor
  · unfold runAssignment
    rw [assignFrom_trace]
    rfl
  · intro j c hj
    have h := assignFrom_mapGet_at numHosts idOf cids 0 j [] c hnd hj rfl
    simpa using h

/-- Claim C4 witness: the theorem applied to a fleet of four hosts and two
distinct identifiers: identifier 0 goes to hosts 0 and 2, identifier 1 to
hosts 1 and 3, and the map entry of the second identifier holds the two host
identities in announcement order. -/
theorem C4_assignment_witness :
    (runAssignment 4 (fun i => 100 + i) [[1], [2]]).2 =
        [(0, [1]), (2, [1]), (1, [2]), (3, [2])] ∧
      mapGet (runAssignment 4 (fun i => 100 + i) [[1], [2]]).1 [2] = some [101, 103] := by
  have h := C4_assignment 4 (fun i => 100 + i) [[1], [2]] (by norm_num) (by decide)
  exact ⟨h.1.trans (by decide), (h.2 1 [2] rfl).trans (by decide)⟩

end DhtTester
